import Mathlib

/-!
Verification development for the home-assistant-frontend UI components.

The definitions below are a shallow embedding of the TypeScript sources:

* `src/components/chart/statistics-chart.ts` (`_generateData`, its inner
  `pushData` closure, and `render`),
* `src/components/chart/ha-chart-base.ts` (`shouldUpdate` / `willUpdate`
  padding-lock logic),
* `src/dialogs/voice-assistant-setup/cloud/cloud-step-signin.ts`
  (`_handleLogin` / `doLogin` and the inline error alert in `render`),
* `src/components/ha-date-input.ts` (`_keyDown`, `_valueChanged`,
  `_openDialog`).

JS numbers are modelled as rationals (`ℚ`), timestamps (`Date.getTime()`)
as integers (`ℤ`), and JS `null`/`undefined` as `Option.none`.
-/

/-- The statistic types of `StatisticType` in `data/recorder`
(`"mean" | "min" | "max" | "sum" | "state" | "change"`). -/
inductive StatType where
  | mean
  | min
  | max
  | sum
  | state
  | change
deriving DecidableEq, Repr

/-- One bucket of a statistic series (`StatisticValue`): its `start` and
`end` timestamps (as `Date.getTime()` integers) and the possibly-missing
numeric fields accessed by `_generateData` via `stat[type]` and
`stat.sum`.  `end` is a Lean keyword, so the field is named `endT`. -/
structure StatValue where
  start : Int
  endT : Int
  mean : Option ℚ
  min : Option ℚ
  max : Option ℚ
  sum : Option ℚ
  state : Option ℚ
  change : Option ℚ
deriving DecidableEq, Repr

/-- The JS field access `stat[type]`. -/
def StatValue.get (st : StatValue) : StatType → Option ℚ
  | .mean => st.mean
  | .min => st.min
  | .max => st.max
  | .sum => st.sum
  | .state => st.state
  | .change => st.change

/-- A default `StatValue`, used only as the `getD` fallback in statements. -/
def StatValue.dflt : StatValue :=
  ⟨0, 0, none, none, none, none, none, none⟩

/-- A chart display point `{ x, y }` as pushed by `pushData`:
`x` is a timestamp, `y` a number or `null` (the gap points have `y = null`). -/
structure Point where
  x : Int
  y : Option ℚ
deriving DecidableEq, Repr

/-- The per-bucket inner loop of `_generateData`
(`statTypes.forEach((type) => ...)`, statistics-chart.ts lines 506-519):
computes the `dataValues` array for one bucket, threading the mutable
`firstSum` through the requested types.  For `type === "sum"`, if
`firstSum` is still unset the value is `0` and `firstSum` becomes
`stat.sum`; otherwise the value is `(stat.sum || 0) - firstSum`.  For every
other type the value is `stat[type]`.  `val ?? null` maps `undefined` to
`null`, which `Option` already does. -/
def bucketValues (st : StatValue) : Option ℚ → List StatType → List (Option ℚ) × Option ℚ
  | fs, [] => ([], fs)
  | fs, t :: ts =>
    if t = .sum then
      match fs with
      | none =>
        let r := bucketValues st st.sum ts
        (some 0 :: r.1, r.2)
      | some f =>
        let r := bucketValues st (some f) ts
        (some (st.sum.getD 0 - f) :: r.1, r.2)
    else
      let r := bucketValues st fs ts
      (st.get t :: r.1, r.2)

/-- The gap segment pushed by `pushData` before a bucket's display point
(statistics-chart.ts lines 401-413): when the chart is a line chart and
both `prevEndTime` and `prevValues` are set and the previous bucket's end
differs from the current bucket's start, dataset `i` receives
`{x: prevEndTime, y: prevValues[i]}` followed by `{x: prevEndTime, y: null}`. -/
def pushGap (isLine : Bool) (prevEnd : Option Int) (prevVals : Option (List (Option ℚ)))
    (start : Int) (i : Nat) : List Point :=
  match prevEnd, prevVals with
  | some pe, some pv =>
    if isLine ∧ pe ≠ start then [⟨pe, pv.getD i none⟩, ⟨pe, none⟩] else []
  | _, _ => []

/-- The `statDataSets.forEach((d, i) => ...)` loop inside `pushData`:
appends to each dataset its gap segment (if any) and the display point
`{x: start, y: dataValues[i]}`. -/
def appendPoints (isLine : Bool) (prevEnd : Option Int) (prevVals : Option (List (Option ℚ)))
    (start : Int) (dataValues : List (Option ℚ)) : Nat → List (List Point) → List (List Point)
  | _, [] => []
  | i, d :: ds =>
    (d ++ pushGap isLine prevEnd prevVals start i ++ [⟨start, dataValues.getD i none⟩]) ::
      appendPoints isLine prevEnd prevVals start dataValues (i + 1) ds

/-- The `pushData` closure of `_generateData` (statistics-chart.ts lines
390-418).  `dataValues` is always a non-null array at the call site, so the
`if (!dataValues) return` guard is not modelled.  A bucket with
`start > end` is dropped without touching `prevValues` / `prevEndTime`;
otherwise all datasets receive their points and the previous-bucket state
is updated.  Returns `(datasets, prevValues, prevEndTime)`. -/
def pushData (isLine : Bool) (prevVals : Option (List (Option ℚ))) (prevEnd : Option Int)
    (ds : List (List Point)) (start endT : Int) (dataValues : List (Option ℚ)) :
    List (List Point) × Option (List (Option ℚ)) × Option Int :=
  if start > endT then (ds, prevVals, prevEnd)
  else (appendPoints isLine prevEnd prevVals start dataValues 0 ds, some dataValues, some endT)

/-- The `stats.forEach((stat) => ...)` bucket loop of `_generateData`
(statistics-chart.ts lines 499-521), for one statistic: compute the
bucket's `dataValues` (updating `firstSum` even for buckets that
`pushData` subsequently drops), then call `pushData`.

The source's `if (prevDate === startDate) return` guard compares two
distinct `Date` objects with JS reference equality, which is always false
(`startDate` is freshly constructed each iteration), so it is dead code
and not modelled. -/
def processStats (isLine : Bool) (types : List StatType) :
    Option ℚ → Option (List (Option ℚ)) → Option Int → List (List Point) →
      List StatValue → List (List Point)
  | _, _, _, ds, [] => ds
  | fs, pv, pe, ds, st :: rest =>
    let r := bucketValues st fs types
    let p := pushData isLine pv pe ds st.start st.endT r.1
    processStats isLine types r.2 p.2.1 p.2.2 p.1 rest

/-- The datasets generated for one statistic, given the retained statistic
types for that statistic (`statTypes` built in the `sortedTypes.forEach`):
in the source each retained type contributes one dataset starting with
`data: []`. -/
def generateStatDatasets (isLine : Bool) (types : List StatType)
    (stats : List StatValue) : List (List Point) :=
  processStats isLine types none none none (List.replicate types.length []) stats

/-- Modelled from the spec: `statisticsHaveType` (imported from
`data/recorder`, whose source is not part of this corpus) decides whether a
requested statistic type is "present in that statistic's data", i.e. some
bucket has a defined value for it. -/
def statisticsHaveType (stats : List StatValue) (t : StatType) : Bool :=
  stats.any fun st => (st.get t).isSome

/-- The sort key implied by the band-drawing comparator in `_generateData`
(statistics-chart.ts lines 438-446): `min` sorts before every other type,
`max` after every other type, all others keep their relative order. -/
def statTypeKey : StatType → Nat
  | .min => 0
  | .max => 2
  | _ => 1

/-- Stable sort of the requested types by `statTypeKey` (for a three-valued
key a stable sort is exactly this concatenation of filters).  This models
`[...this.statTypes].sort(...)` with the band comparator. -/
def sortedByBands (req : List StatType) : List StatType :=
  req.filter (fun t => statTypeKey t == 0) ++
    req.filter (fun t => statTypeKey t == 1) ++
      req.filter (fun t => statTypeKey t == 2)

/-- `hasMean` (statistics-chart.ts lines 428-429). -/
def hasMean (req : List StatType) (stats : List StatValue) : Bool :=
  req.contains .mean && statisticsHaveType stats .mean

/-- `drawBands` (statistics-chart.ts lines 430-435). -/
def drawBands (req : List StatType) (stats : List StatValue) : Bool :=
  hasMean req stats ||
    (req.contains .min && statisticsHaveType stats .min &&
      req.contains .max && statisticsHaveType stats .max)

/-- `sortedTypes` (statistics-chart.ts lines 437-447). -/
def sortedTypes (req : List StatType) (stats : List StatValue) : List StatType :=
  if drawBands req stats then sortedByBands req else req

/-- The `statTypes` list actually retained for one statistic: the sorted
requested types filtered by `statisticsHaveType` (the
`sortedTypes.forEach` at statistics-chart.ts lines 450-494 pushes one
dataset per retained type). -/
def retainedTypes (req : List StatType) (stats : List StatValue) : List StatType :=
  (sortedTypes req stats).filter (statisticsHaveType stats)

/-- The per-statistic `stats[stats.length - 1].start` reads inside the
`endTime` default of `_generateData` (lines 348-354): for an empty series
`stats[stats.length - 1]` is `undefined` and reading `.start` throws a
TypeError, modelled as `none` for the whole computation. -/
def lastStarts : List (List StatValue) → Option (List Int)
  | [] => some []
  | stats :: rest =>
    match stats.getLast?.map (·.start), lastStarts rest with
    | some s, some ss => some (s :: ss)
    | _, _ => none

/-- The default for the local `endTime` in `_generateData` (lines 345-354):
`Math.max` over the `start` of the last bucket of each statistic, `none`
when some series is empty (the `.start` read throws).  When defined, the
numeric value is never used by the rest of `_generateData`, so the
`Math.max`-of-empty edge does not arise (`statisticsData` is nonempty
here) and `0` is a harmless fold seed. -/
def maxLastStart (sd : List (List StatValue)) : Option Int :=
  (lastStarts sd).map fun l => l.foldl max 0

/-- The `statisticsData.forEach(([id, stats]) => ...)` outer loop of
`_generateData`, concatenating each statistic's datasets
(`Array.prototype.push.apply(totalDataSets, statDataSets)`). -/
def genAll (isLine : Bool) (req : List StatType) : List (List StatValue) → List (List Point)
  | [] => []
  | stats :: rest =>
    generateStatDatasets isLine (retainedTypes req stats) stats ++ genAll isLine req rest

/-- How a `_generateData` run ends: an early return that keeps the previous
chart data (`statisticsData` missing or empty), an uncaught TypeError
thrown while computing the default `endTime` (also keeping the previous
chart data, but aborting the method), or an assignment of fresh datasets. -/
inductive GenResult where
  | noUpdate
  | thrown
  | updated (datasets : List (List Point))
deriving DecidableEq, Repr

/-- `_generateData` (statistics-chart.ts lines 325-537), restricted to the
chart data it produces (labels, colors and legend metadata are
presentational and omitted).  The local `endTime` is `this.endTime`
when set (`||` short-circuits, a `Date` object being always truthy),
otherwise the `maxLastStart` default — whose computation throws when some
statistic's series is empty, aborting the method before any dataset is
built.  Either way the clamped value is computed exactly as in the source
and, exactly as in the source, never used afterwards. -/
def generateData (isLine : Bool) (req : List StatType) (endTime : Option Int) (now : Int)
    (sd : Option (List (List StatValue))) : GenResult :=
  match sd with
  | none => .noUpdate
  | some statsData =>
    if statsData.length = 0 then .noUpdate
    else
      match endTime with
      | some e =>
        let _endTimeClamped : Int := min e now
        .updated (genAll isLine req statsData)
      | none =>
        match maxLastStart statsData with
        | none => .thrown
        | some m =>
          let _endTimeClamped : Int := min m now
          .updated (genAll isLine req statsData)

/-- What the `render` method of `statistics-chart` produces
(statistics-chart.ts lines 142-177): an informational placeholder
identified by its localization key, or the chart. -/
inductive RenderOutput where
  | info (key : String)
  | chart
deriving DecidableEq, Repr

/-- `render` of `statistics-chart` (lines 142-177).  `statisticsData` is
`none` when the property is unset and `some entries` otherwise; an empty
object is `some []` (which is truthy in JS, so it does not take the
loading branch). -/
def renderStatisticsChart (historyLoaded : Bool) (isLoadingData : Bool)
    (statisticsData : Option (List (List StatValue))) : RenderOutput :=
  if ¬ historyLoaded then
    .info "ui.components.history_charts.history_disabled"
  else if isLoadingData ∧ statisticsData = none then
    .info "ui.components.statistics_charts.loading_statistics"
  else if statisticsData = none ∨ (statisticsData.getD []).isEmpty then
    .info "ui.components.statistics_charts.no_statistics_found"
  else
    .chart

/-! ### Specification-side reference functions for the bucketing pass

These re-state, directly from the (amended) specification words, what the
generated datasets should be; the refinement lemmas below prove them equal
to the source-embedded generation. -/

/-- The per-bucket triples `(start, end, dataValues)` for one statistic, with
the `firstSum` baseline threaded through all buckets (dropped buckets
included, matching the source where `dataValues` is computed before
`pushData` decides to drop). -/
def statTriples (types : List StatType) : Option ℚ → List StatValue →
    List (Int × Int × List (Option ℚ))
  | _, [] => []
  | fs, st :: rest =>
    let r := bucketValues st fs types
    (st.start, st.endT, r.1) :: statTriples types r.2 rest

/-- The retained bucket triples: buckets whose start exceeds their end
contribute nothing. -/
def retainedBuckets (types : List StatType) (stats : List StatValue) :
    List (Int × Int × List (Option ℚ)) :=
  (statTriples types none stats).filter fun t => !(decide (t.1 > t.2.1))

/-- The retained buckets projected to statistic type `i` of the retained
type list: `(start, end, value)`. -/
def specRetainedAt (types : List StatType) (stats : List StatValue) (i : Nat) :
    List (Int × Int × Option ℚ) :=
  (retainedBuckets types stats).map fun t => (t.1, t.2.1, t.2.2.getD i none)

/-- Spec-side dataset builder: one display point `(start, value)` per
retained bucket, in input order; on a line chart, whenever the previous
bucket's end differs from the next bucket's start, the pair of gap points
`(prevEnd, prevValue)`, `(prevEnd, null)` is inserted between the two
buckets' display points. -/
def gapFlatten (isLine : Bool) : Option (Int × Option ℚ) →
    List (Int × Int × Option ℚ) → List Point
  | _, [] => []
  | prev, (s, e, v) :: rest =>
    (match prev with
      | some (pe, pv) => if isLine ∧ pe ≠ s then [⟨pe, pv⟩, ⟨pe, none⟩] else []
      | none => []) ++ ⟨s, v⟩ :: gapFlatten isLine (some (e, v)) rest

/-- The dataset the (amended) spec prescribes for type index `i`. -/
def specDataset (isLine : Bool) (types : List StatType) (stats : List StatValue)
    (i : Nat) : List Point :=
  gapFlatten isLine none (specRetainedAt types stats i)

/-- Just the per-bucket display points (no gap points). -/
def bucketPoints (types : List StatType) (stats : List StatValue) (i : Nat) :
    List Point :=
  (specRetainedAt types stats i).map fun t => ⟨t.1, t.2.2⟩

/-! ### Instrumented (traced) generation, for the single-pass claim -/

/-- `processStats` instrumented with the list of bucket indices it visits,
in visit order, starting at index `k`.  The computation is identical to
`processStats`; the trace is the only addition. -/
def processStatsT (isLine : Bool) (types : List StatType) :
    Option ℚ → Option (List (Option ℚ)) → Option Int → List (List Point) → Nat →
      List StatValue → List (List Point) × List Nat
  | _, _, _, ds, _, [] => (ds, [])
  | fs, pv, pe, ds, k, st :: rest =>
    let r := bucketValues st fs types
    let p := pushData isLine pv pe ds st.start st.endT r.1
    let next := processStatsT isLine types r.2 p.2.1 p.2.2 p.1 (k + 1) rest
    (next.1, k :: next.2)

/-- `genAll` instrumented with the `(statistic index, bucket index)` pairs
visited, in visit order, starting at statistic index `s`. -/
def genAllT (isLine : Bool) (req : List StatType) :
    Nat → List (List StatValue) → List (List Point) × List (Nat × Nat)
  | _, [] => ([], [])
  | s, stats :: rest =>
    let tys := retainedTypes req stats
    let d := processStatsT isLine tys none none none (List.replicate tys.length []) 0 stats
    let r := genAllT isLine req (s + 1) rest
    (d.1 ++ r.1, d.2.map (fun k => (s, k)) ++ r.2)

/-- Spec-side enumeration of every `(statistic index, bucket index)` pair,
statistic by statistic, bucket by bucket, starting at statistic index `s`. -/
def enumPairs : Nat → List (List StatValue) → List (Nat × Nat)
  | _, [] => []
  | s, stats :: rest =>
    (List.range stats.length).map (fun k => (s, k)) ++ enumPairs (s + 1) rest

/-! ### Cloud sign-in step (`cloud-step-signin.ts`) -/

/-- ASCII lowering of one UTF-16 code unit, modelling
`String.prototype.toLowerCase` on the characters it affects in this
component (the property the proofs use is idempotence, which JS
lowercasing shares). -/
def lowerCode (n : Nat) : Nat :=
  if 65 ≤ n ∧ n ≤ 90 then n + 32 else n

/-- `username.toLowerCase()`; a username is its list of code units. -/
def toLowerCase (u : List Nat) : List Nat :=
  u.map lowerCode

/-- The error shape inspected by `doLogin`: `err.body.code` and
`err.body.message`, both possibly missing (`err && err.body && ...`
short-circuits to the same `Option` behaviour). -/
structure LoginErr where
  code : Option String
  message : Option String
deriving DecidableEq, Repr

/-- The observable state of the sign-in component after `_handleLogin`:
the inline `_error` state, `_requestInProgress`, whether
`showAlertDialog` was invoked, the `navigate` target, whether the
`"closed"` event was fired, and how many times `cloudLogin` was called. -/
structure SigninState where
  error : Option String
  requestInProgress : Bool
  alertDialogShown : Bool
  navigatedTo : Option String
  closedFired : Bool
  calls : Nat
deriving DecidableEq, Repr

/-- The behaviour of the backend `cloudLogin` call for a fixed password:
`none` is a fulfilled promise, `some err` a rejection.  Successive calls
within one handler invocation always use different usernames, so a
per-username result captures every run. -/
def CloudOracle : Type :=
  List Nat → Option LoginErr

/-- JS truthiness of `err.body.message` (the empty string is falsy in
`err.body.message ? err.body.message : "Unknown error"`). -/
def truthyMessage : Option String → Option String
  | some m => if m = "" then none else some m
  | none => none

/-- The tail of `doLogin`'s catch block after the lowercase-retry check
(cloud-step-signin.ts lines 118-142): `"PasswordChangeRequired"` shows a
modal alert dialog, navigates to the forgot-password page and fires
`"closed"`; otherwise `_requestInProgress` is reset and either the
localized `"UserNotConfirmed"` message or the error body's message (or
`"Unknown error"`) becomes the inline `_error`. -/
def loginCatchRest (localize : String → String) (s : SigninState)
    (err : LoginErr) : SigninState :=
  if err.code = some "PasswordChangeRequired" then
    { s with
      alertDialogShown := true
      navigatedTo := some "/config/cloud/forgot-password"
      closedFired := true }
  else
    let s := { s with requestInProgress := false }
    if err.code = some "UserNotConfirmed" then
      let msg := localize "ui.panel.config.cloud.login.alert_email_confirm_necessary"
      { s with error := some msg }
    else
      { s with error := some ((truthyMessage err.message).getD "Unknown error") }

/-- `doLogin` (cloud-step-signin.ts lines 107-144).  On rejection with code
`"usernotfound"` and a not-yet-lowercase username it retries with the
lowercased username; every other rejection is handled by
`loginCatchRest`. -/
def doLogin (localize : String → String) (oracle : CloudOracle)
    (s : SigninState) (username : List Nat) : SigninState :=
  let s := { s with calls := s.calls + 1 }
  match oracle username with
  | none => s
  | some err =>
    if hc : err.code = some "usernotfound" ∧ username ≠ toLowerCase username then
      doLogin localize oracle s (toLowerCase username)
    else
      loginCatchRest localize s err
termination_by if toLowerCase username = username then 0 else 1
decreasing_by
  have hidem : lowerCode ∘ lowerCode = lowerCode := by
    funext c
    simp only [Function.comp_apply, lowerCode]
    split <;> (try split) <;> omega
  have hne : List.map lowerCode username ≠ username := by
    simpa [toLowerCase] using fun h => hc.2 h.symm
  simp [toLowerCase, List.map_map, hidem, hne]

/-- `_handleLogin` (cloud-step-signin.ts lines 87-147): runs the field
validity checks, then `doLogin(email)` with `_requestInProgress` set. -/
def handleLogin (localize : String → String) (oracle : CloudOracle)
    (emailValid passwordValid : Bool) (email : List Nat) : SigninState :=
  let s0 : SigninState := ⟨none, false, false, none, false, 0⟩
  if ¬ emailValid then s0
  else if ¬ passwordValid then s0
  else doLogin localize oracle { s0 with requestInProgress := true } email

/-- The inline alert in `render` (cloud-step-signin.ts lines 36-38):
`this._error ? <ha-alert>${this._error}</ha-alert> : ""`.  Returns the
alert's content when an alert is rendered (`_error` truthy). -/
def renderAlert : Option String → Option String
  | some m => if m = "" then none else some m
  | none => none

/-- The backend call whose result a `_handleLogin` run with valid fields
ends up handling (the "final" call): the first call at the typed e-mail,
except that a `"usernotfound"` rejection of a non-lowercase e-mail hands
over to the single retry at the lowercased e-mail, whose result is handled
in its place.  Returns the username used and that call's result. -/
def finalCall (oracle : CloudOracle) (email : List Nat) : List Nat × Option LoginErr :=
  match oracle email with
  | none => (email, none)
  | some err =>
    if err.code = some "usernotfound" ∧ email ≠ toLowerCase email then
      (toLowerCase email, oracle (toLowerCase email))
    else (email, some err)

/-- How the component surfaces the result `res` of the final backend call,
as a function of that result: a fulfilled call surfaces nothing
(no inline error, no dialog, no navigation, no `"closed"` event); a
`"PasswordChangeRequired"` rejection is surfaced through the modal alert
dialog, navigation to the forgot-password page and the `"closed"` event,
with no inline error; and every other rejection is surfaced through the
inline error state, which `render` shows as an `ha-alert` whose content is
exactly the localized confirmation-needed string (for
`"UserNotConfirmed"`) or the error body's message (`"Unknown error"` when
missing or empty) — with no other channel used. -/
def SurfacesFinal (localize : String → String) (res : Option LoginErr)
    (s : SigninState) : Prop :=
  (res = none → s.error = none ∧ s.alertDialogShown = false ∧
      s.navigatedTo = none ∧ s.closedFired = false) ∧
    (∀ err, res = some err → err.code = some "PasswordChangeRequired" →
      s.error = none ∧ s.alertDialogShown = true ∧
        s.navigatedTo = some "/config/cloud/forgot-password" ∧ s.closedFired = true) ∧
    (∀ err, res = some err → err.code ≠ some "PasswordChangeRequired" →
      ∃ m, s.error = some m ∧ renderAlert s.error = some m ∧
        s.alertDialogShown = false ∧ s.navigatedTo = none ∧ s.closedFired = false ∧
        m = (if err.code = some "UserNotConfirmed" then
              localize "ui.panel.config.cloud.login.alert_email_confirm_necessary"
            else (truthyMessage err.message).getD "Unknown error"))

/-! ### Date input widget (`ha-date-input.ts`) -/

/-- The widget state relevant to value changes: the current `value`
(a date string or `undefined`) and the `canClear` and `disabled` flags. -/
structure DateInputState where
  value : Option String
  canClear : Bool
  disabled : Bool
deriving DecidableEq, Repr

/-- The DOM events the widget fires. -/
inductive DateFired where
  | change
  | valueChanged (v : Option String)
deriving DecidableEq, Repr

/-- The inputs that can reach `_valueChanged`: a key press on the readonly
text field, or the date-picker dialog invoking its `onChange` callback. -/
inductive DateInputEvent where
  | keyDown (key : String)
  | dialogChange (v : Option String)
deriving DecidableEq, Repr

/-- `_valueChanged` (ha-date-input.ts lines 106-112): updates the value and
fires `change` and `value-changed` only when the new value differs. -/
def dateValueChanged (s : DateInputState) (v : Option String) :
    DateInputState × List DateFired :=
  if s.value ≠ v then ({ s with value := v }, [.change, .valueChanged v])
  else (s, [])

/-- `_keyDown` (ha-date-input.ts lines 97-104): only Backspace/Delete with
`canClear` enabled do anything, namely clear the value. -/
def dateKeyDown (s : DateInputState) (key : String) :
    DateInputState × List DateFired :=
  if ¬ s.canClear then (s, [])
  else if key = "Backspace" ∨ key = "Delete" then dateValueChanged s none
  else (s, [])

/-- One step of the widget: a key press is handled by `_keyDown`; a value
supplied by the date-picker dialog reaches `_valueChanged` through the
`onChange` callback installed by `_openDialog`. -/
def dateInputStep (s : DateInputState) : DateInputEvent →
    DateInputState × List DateFired
  | .keyDown k => dateKeyDown s k
  | .dialogChange v => dateValueChanged s v

/-! ### Chart base component (`ha-chart-base.ts`) -/

/-- The padding-lock state of `ha-chart-base`: `_paddingUpdateCount`,
`_paddingUpdateLock` and `_paddingYAxisInternal`. -/
structure ChartBaseState where
  paddingUpdateCount : Nat
  paddingUpdateLock : Bool
  paddingYAxisInternal : Int
deriving DecidableEq, Repr

/-- The events driving the padding-lock logic: an update cycle
(`onlyPadding` records whether `changedProps.size === 1 &&
changedProps.has("paddingYAxis")`; `padding` is the current `paddingYAxis`
property value), or the 2-second debounce firing
(`_debouncedClearUpdates`).  Allowing the debounce to fire at arbitrary
points over-approximates the real timer, which only strengthens the
safety theorems proved below. -/
inductive ChartBaseEvent where
  | update (onlyPadding : Bool) (padding : Int)
  | quiet
deriving DecidableEq, Repr

/-- One reactive update cycle of `ha-chart-base`, combining `shouldUpdate`
(lines 126-135) and the padding part of `willUpdate` (lines 145-162).
Returns the new state and whether a re-render happened (`shouldUpdate`
returning `false` suppresses `willUpdate` and the render). -/
def chartBaseStep (s : ChartBaseState) : ChartBaseEvent → ChartBaseState × Bool
  | .quiet => ({ s with paddingUpdateCount := 0 }, false)
  | .update onlyPadding pad =>
    if s.paddingUpdateLock ∧ onlyPadding then (s, false)
    else
      let s' :=
        if ¬ s.paddingUpdateLock then
          let s1 := { s with paddingYAxisInternal := pad }
          if onlyPadding then
            let c := s1.paddingUpdateCount + 1
            if c > 300 then
              { s1 with paddingUpdateCount := c, paddingUpdateLock := true }
            else
              { s1 with paddingUpdateCount := c }
          else s1
        else s
      (s', true)

/-- Folding a trace of events through `chartBaseStep`. -/
def chartBaseRun (s : ChartBaseState) (evs : List ChartBaseEvent) : ChartBaseState :=
  evs.foldl (fun st ev => (chartBaseStep st ev).1) s

/-! ### Helpers used only in theorem statements -/

/-- The previous-bucket information `pushData` keeps, projected to dataset
index `i` (the gap condition requires both `prevEndTime` and `prevValues`). -/
def prevCombine (pe : Option Int) (pv : Option (List (Option ℚ))) (i : Nat) :
    Option (Int × Option ℚ) :=
  match pe, pv with
  | some e, some l => some (e, l.getD i none)
  | _, _ => none

/-- The previous-bucket information after processing the buckets `xs`. -/
def lastPrev (prev : Option (Int × Option ℚ)) (xs : List (Int × Int × Option ℚ)) :
    Option (Int × Option ℚ) :=
  xs.foldl (fun _ t => some (t.2.1, t.2.2)) prev

/-- Whether `_handleLogin`'s first `cloudLogin` call triggers the automatic
lowercase retry: its rejection carries code `"usernotfound"` and the typed
e-mail is not already all-lowercase. -/
def retryTriggered (oracle : CloudOracle) (email : List Nat) : Bool :=
  match oracle email with
  | some err => decide (err.code = some "usernotfound") && decide (email ≠ toLowerCase email)
  | none => false

/-! ### Concrete fixtures for counterexamples and witnesses -/

/-- A bucket `[0, 5]` with mean `1`. -/
def exMeanA : StatValue := ⟨0, 5, some 1, none, none, none, none, none⟩

/-- A bucket `[7, 9]` with mean `2`, not contiguous with `exMeanA`. -/
def exMeanB : StatValue := ⟨7, 9, some 2, none, none, none, none, none⟩

/-- A bucket `[0, 5]` with sum `5`. -/
def exSumA : StatValue := ⟨0, 5, none, none, none, some 5, none, none⟩

/-- A bucket `[5, 9]` with sum `7`, contiguous with `exSumA`. -/
def exSumB : StatValue := ⟨5, 9, none, none, none, some 7, none, none⟩

/-- A malformed bucket whose start `10` exceeds its end `5`, with sum `5`:
`pushData` drops it, yet it still sets the sum baseline. -/
def exDropA : StatValue := ⟨10, 5, none, none, none, some 5, none, none⟩

/-- A well-formed bucket `[0, 1]` with sum `7`. -/
def exDropB : StatValue := ⟨0, 1, none, none, none, some 7, none, none⟩

/-- A bucket `[0, 1]` with no defined sum. -/
def exNoSum : StatValue := ⟨0, 1, none, none, none, none, none, none⟩
/-! ## Theorems -/

/-- JS lowercasing is idempotent, the property the retry bound rests on. -/
theorem toLowerCase_idem (u : List Nat) : toLowerCase (toLowerCase u) = toLowerCase u := by
  have hidem : lowerCode ∘ lowerCode = lowerCode := by
    funext c
    simp only [Function.comp_apply, lowerCode]
    split <;> (try split) <;> omega
  simp [toLowerCase, List.map_map, hidem]

/-- Unfolding `doLogin` when the call succeeds. -/
theorem doLogin_none (localize : String → String) (oracle : CloudOracle)
    (s : SigninState) (u : List Nat) (horc : oracle u = none) :
    doLogin localize oracle s u = { s with calls := s.calls + 1 } := by
  rw [doLogin, horc]

/-- Unfolding `doLogin` when the call fails without triggering the lowercase retry. -/
theorem doLogin_noretry (localize : String → String) (oracle : CloudOracle)
    (s : SigninState) (u : List Nat) (err : LoginErr) (horc : oracle u = some err)
    (hc : ¬ (err.code = some "usernotfound" ∧ u ≠ toLowerCase u)) :
    doLogin localize oracle s u =
      loginCatchRest localize { s with calls := s.calls + 1 } err := by
  rw [doLogin, horc]
  exact dif_neg hc

/-- Unfolding `doLogin` when the call fails with `\"usernotfound\"` on a non-lowercase username. -/
theorem doLogin_retry (localize : String → String) (oracle : CloudOracle)
    (s : SigninState) (u : List Nat) (err : LoginErr) (horc : oracle u = some err)
    (hc : err.code = some "usernotfound" ∧ u ≠ toLowerCase u) :
    doLogin localize oracle s u =
      doLogin localize oracle { s with calls := s.calls + 1 } (toLowerCase u) := by
  rw [doLogin, horc]
  exact dif_pos hc

/-- The catch fallthrough makes no further backend call. -/
theorem loginCatchRest_calls (localize : String → String) (s : SigninState)
    (err : LoginErr) : (loginCatchRest localize s err).calls = s.calls := by
  rw [loginCatchRest]
  split
  · rfl
  · split <;> rfl

/-- An already-lowercase username leads to exactly one backend call. -/
theorem doLogin_calls_fixed (localize : String → String) (oracle : CloudOracle)
    (s : SigninState) (u : List Nat) (hu : toLowerCase u = u) :
    (doLogin localize oracle s u).calls = s.calls + 1 := by
  cases horc : oracle u with
  | none => rw [doLogin_none localize oracle s u horc]
  | some err =>
    have hc : ¬ (err.code = some "usernotfound" ∧ u ≠ toLowerCase u) := by
      intro h
      exact h.2 hu.symm
    rw [doLogin_noretry localize oracle s u err horc hc, loginCatchRest_calls]

/-- Claim C1, counterexample: with every call rejected with code `\"usernotfound\"` and the e-mail `[65]` (an uppercase letter), one invocation of the login handler makes two backend calls, so the claimed at-most-one bound is false. -/
theorem cloud_login_single_call_cex :
    (handleLogin id (fun _ => some ⟨some "usernotfound", none⟩) true true [65]).calls = 2 ∧
      ¬ (handleLogin id (fun _ => some ⟨some "usernotfound", none⟩) true true [65]).calls ≤ 1 := by
  have h1 : (handleLogin id (fun _ => some ⟨some "usernotfound", none⟩) true true [65]).calls = 2 := by
    rw [handleLogin]
    norm_num
    rw [doLogin_retry _ _ _ _ _ rfl (by decide)]
    rw [doLogin_calls_fixed _ _ _ _ (by decide)]
  exact ⟨h1, by omega⟩

/-- Claim C1 (amended): each invocation of the login handler results in at most two calls to the backend cloud-login service, and the second call happens exactly when the first rejection carries code `\"usernotfound\"` and the username is not already all-lowercase. -/
theorem cloud_login_at_most_two_calls (localize : String → String) (oracle : CloudOracle)
    (emailValid passwordValid : Bool) (email : List Nat) :
    (handleLogin localize oracle emailValid passwordValid email).calls ≤
      if retryTriggered oracle email then 2 else 1 := by
  have hbound : (1:Nat) ≤ if retryTriggered oracle email then 2 else 1 := by
    split <;> omega
  rw [handleLogin]
  split
  · exact le_trans (by decide) hbound
  · split
    · exact le_trans (by decide) hbound
    · cases horc : oracle email with
      | none =>
        rw [doLogin_none _ _ _ _ horc]
        exact le_trans (by decide) hbound
      | some err =>
        by_cases hc : err.code = some "usernotfound" ∧ email ≠ toLowerCase email
        · rw [doLogin_retry _ _ _ _ _ horc hc]
          rw [doLogin_calls_fixed _ _ _ _ (toLowerCase_idem email)]
          have hr : retryTriggered oracle email = true := by
            simp [retryTriggered, horc, hc.1, hc.2]
          rw [hr]
          decide
        · rw [doLogin_noretry _ _ _ _ _ horc hc, loginCatchRest_calls]
          exact le_trans (by decide) hbound

/-- A truthy message is never the empty string. -/
theorem truthyMessage_ne_empty {x : Option String} {mm : String}
    (h : truthyMessage x = some mm) : mm ≠ "" := by
  cases x with
  | none => simp [truthyMessage] at h
  | some m =>
    by_cases hm : m = ""
    · simp [truthyMessage, hm] at h
    · simp [truthyMessage, hm] at h
      exact h ▸ hm

/-- The catch fallthrough surfaces its error exactly as `SurfacesFinal`
prescribes for that error. -/
theorem loginCatchRest_surfaces (localize : String → String) (s : SigninState)
    (err : LoginErr)
    (hs : s.error = none ∧ s.alertDialogShown = false ∧ s.navigatedTo = none ∧
      s.closedFired = false)
    (hloc : localize "ui.panel.config.cloud.login.alert_email_confirm_necessary" ≠ "") :
    SurfacesFinal localize (some err) (loginCatchRest localize s err) := by
  obtain ⟨he, ha, hn, hcl⟩ := hs
  refine ⟨fun h => Option.noConfusion h, ?_, ?_⟩
  · intro err' herr hpcr
    obtain rfl : err = err' := Option.some.inj herr
    rw [loginCatchRest, if_pos hpcr]
    simp [he]
  · intro err' herr hpcr
    obtain rfl : err = err' := Option.some.inj herr
    rw [loginCatchRest]
    split
    · rename_i hpcr2
      exact absurd hpcr2 hpcr
    · split
      · rename_i huc
        refine ⟨localize "ui.panel.config.cloud.login.alert_email_confirm_necessary",
          by simp, ?_, by simp [ha], by simp [hn], by simp [hcl], by simp [huc]⟩
        simp [renderAlert, hloc]
      · rename_i huc
        cases htm : truthyMessage err.message with
        | some mm =>
          have hmm : mm ≠ "" := truthyMessage_ne_empty htm
          refine ⟨mm, by simp [htm], ?_, by simp [ha], by simp [hn], by simp [hcl],
            by simp [huc, htm]⟩
          simp [renderAlert, htm, hmm]
        | none =>
          refine ⟨"Unknown error", by simp [htm], ?_, by simp [ha], by simp [hn],
            by simp [hcl], by simp [huc, htm]⟩
          simp [renderAlert, htm]

/-- `doLogin` at an already-lowercase username handles that very call's
result and surfaces it as `SurfacesFinal` prescribes. -/
theorem doLogin_surfaces_fixed (localize : String → String) (oracle : CloudOracle)
    (s : SigninState) (u : List Nat) (hu : toLowerCase u = u)
    (hs : s.error = none ∧ s.alertDialogShown = false ∧ s.navigatedTo = none ∧
      s.closedFired = false)
    (hloc : localize "ui.panel.config.cloud.login.alert_email_confirm_necessary" ≠ "") :
    SurfacesFinal localize (oracle u) (doLogin localize oracle s u) := by
  obtain ⟨he, ha, hn, hcl⟩ := hs
  cases horc : oracle u with
  | none =>
    rw [doLogin_none _ _ _ _ horc]
    exact ⟨fun _ => ⟨he, ha, hn, hcl⟩, fun err h => Option.noConfusion h,
      fun err h => Option.noConfusion h⟩
  | some err =>
    have hc : ¬ (err.code = some "usernotfound" ∧ u ≠ toLowerCase u) := fun h =>
      h.2 hu.symm
    rw [doLogin_noretry _ _ _ _ _ horc hc]
    exact loginCatchRest_surfaces localize _ err ⟨he, ha, hn, hcl⟩ hloc

/-- Claim C3 (amended): the result of the final backend call - the first
call, or the lowercase retry's call when a `"usernotfound"` rejection of a
non-lowercase e-mail triggered it, whose result is surfaced in the first
rejection's place - determines exactly how the run is surfaced: success
surfaces nothing; every rejection except `"PasswordChangeRequired"` is
surfaced synchronously via inline UI state, rendered as an inline alert
containing exactly the localized confirmation-needed string (for
`"UserNotConfirmed"`) or the error body's message (`"Unknown error"` when
missing or empty), with no other channel used; a `"PasswordChangeRequired"`
rejection is surfaced instead through a modal alert dialog, navigation to
the forgot-password page and a `"closed"` event. -/
theorem cloud_login_error_surfacing (localize : String → String) (oracle : CloudOracle)
    (email : List Nat)
    (hloc : localize "ui.panel.config.cloud.login.alert_email_confirm_necessary" ≠ "") :
    SurfacesFinal localize (finalCall oracle email).2
      (handleLogin localize oracle true true email) := by
  rw [handleLogin]
  norm_num
  cases horc : oracle email with
  | none =>
    have hfc : (finalCall oracle email).2 = none := by simp [finalCall, horc]
    rw [hfc, doLogin_none _ _ _ _ horc]
    exact ⟨fun _ => ⟨rfl, rfl, rfl, rfl⟩, fun err h => Option.noConfusion h,
      fun err h => Option.noConfusion h⟩
  | some err =>
    by_cases hc : err.code = some "usernotfound" ∧ email ≠ toLowerCase email
    · have hfc : (finalCall oracle email).2 = oracle (toLowerCase email) := by
        simp [finalCall, horc, hc]
      rw [hfc, doLogin_retry _ _ _ _ _ horc hc]
      exact doLogin_surfaces_fixed localize oracle _ _ (toLowerCase_idem email)
        ⟨rfl, rfl, rfl, rfl⟩ hloc
    · have hfc : (finalCall oracle email).2 = some err := by
        simp [finalCall, horc, hc]
      rw [hfc, doLogin_noretry _ _ _ _ _ horc hc]
      exact loginCatchRest_surfaces localize _ err ⟨rfl, rfl, rfl, rfl⟩ hloc

/-- Witness for claim C3: with every call rejected as `"UserNotConfirmed"`,
the run is surfaced inline as the characterization prescribes. -/
theorem cloud_login_error_surfacing_witness :
    (id "ui.panel.config.cloud.login.alert_email_confirm_necessary" ≠ "") ∧
      SurfacesFinal id
        (finalCall (fun _ => some ⟨some "UserNotConfirmed", none⟩) [97]).2
        (handleLogin id (fun _ => some ⟨some "UserNotConfirmed", none⟩) true true [97]) :=
  ⟨by decide, cloud_login_error_surfacing id (fun _ => some ⟨some "UserNotConfirmed", none⟩)
    [97] (by decide)⟩

/-- Claim C3, counterexample: a rejection with code `\"PasswordChangeRequired\"` is not surfaced inline (no error state, no alert) but through a modal alert dialog, navigation, and a `\"closed\"` event. -/
theorem cloud_login_inline_only_cex :
    (handleLogin id (fun _ => some ⟨some "PasswordChangeRequired", none⟩) true true
        [97]).error = none ∧
      renderAlert (handleLogin id (fun _ => some ⟨some "PasswordChangeRequired", none⟩)
        true true [97]).error = none ∧
      (handleLogin id (fun _ => some ⟨some "PasswordChangeRequired", none⟩) true true
        [97]).alertDialogShown = true ∧
      (handleLogin id (fun _ => some ⟨some "PasswordChangeRequired", none⟩) true true
        [97]).navigatedTo = some "/config/cloud/forgot-password" ∧
      (handleLogin id (fun _ => some ⟨some "PasswordChangeRequired", none⟩) true true
        [97]).closedFired = true := by
  have h : handleLogin id (fun _ => some ⟨some "PasswordChangeRequired", none⟩) true true [97] =
      ⟨none, true, true, some "/config/cloud/forgot-password", true, 1⟩ := by
    rw [handleLogin]
    norm_num
    rw [doLogin_noretry _ _ _ _ _ rfl (by decide)]
    decide
  rw [h]
  decide

/-- Claim C6: the date input's value changes only to a dialog-supplied value or to undefined via Backspace/Delete with clearing enabled; any other key press leaves the widget unchanged and fires nothing; and the `change`/`value-changed` pair fires exactly when the new value differs from the current one. -/
theorem date_input_value_transitions (s : DateInputState) (ev : DateInputEvent) :
    ((dateInputStep s ev).1.value = s.value ∨
      (∃ v, ev = .dialogChange v ∧ (dateInputStep s ev).1.value = v) ∨
      (∃ k, ev = .keyDown k ∧ (k = "Backspace" ∨ k = "Delete") ∧ s.canClear = true ∧
        (dateInputStep s ev).1.value = none)) ∧
    (∀ k, ev = .keyDown k → ¬ ((k = "Backspace" ∨ k = "Delete") ∧ s.canClear = true) →
      dateInputStep s ev = (s, [])) ∧
    ((dateInputStep s ev).2 ≠ [] ↔ (dateInputStep s ev).1.value ≠ s.value) ∧
    ((dateInputStep s ev).2 = [] ∨
      (dateInputStep s ev).2 = [.change, .valueChanged (dateInputStep s ev).1.value]) := by
  cases ev with
  | dialogChange v =>
    by_cases h : s.value = v
    · simp [dateInputStep, dateValueChanged, h]
    · simp [dateInputStep, dateValueChanged, h]
      exact fun hv => h hv.symm
  | keyDown k =>
    by_cases hclear : s.canClear
    · by_cases hkey : k = "Backspace" ∨ k = "Delete"
      · by_cases h : s.value = none
        · simp [dateInputStep, dateKeyDown, dateValueChanged, hclear, hkey, h]
        · simp [dateInputStep, dateKeyDown, dateValueChanged, hclear, hkey, h]
          exact ⟨fun hb => hkey.resolve_left hb, fun hn => h hn.symm⟩
      · simp [dateInputStep, dateKeyDown, hclear, hkey]
    · simp [dateInputStep, dateKeyDown, hclear]

/-- A locked chart-base state stays locked and keeps its internal padding over one step. -/
theorem chartBaseStep_locked (s : ChartBaseState) (ev : ChartBaseEvent)
    (h : s.paddingUpdateLock = true) :
    (chartBaseStep s ev).1.paddingUpdateLock = true ∧
      (chartBaseStep s ev).1.paddingYAxisInternal = s.paddingYAxisInternal := by
  cases ev with
  | quiet => simp [chartBaseStep, h]
  | update op pad =>
    by_cases hop : op = true
    · simp [chartBaseStep, h, hop]
    · simp [chartBaseStep, h, hop]

/-- A locked chart-base state stays locked and keeps its internal padding over any trace. -/
theorem chartBaseRun_locked (evs : List ChartBaseEvent) :
    ∀ s : ChartBaseState, s.paddingUpdateLock = true →
      (chartBaseRun s evs).paddingUpdateLock = true ∧
        (chartBaseRun s evs).paddingYAxisInternal = s.paddingYAxisInternal := by
  induction evs with
  | nil => exact fun s h => ⟨h, rfl⟩
  | cons e rest ih =>
    intro s h
    have hstep := chartBaseStep_locked s e h
    have hrun := ih _ hstep.1
    exact ⟨hrun.1, hrun.2.trans hstep.2⟩

/-- Claim C10: once the padding lock is set it is never cleared and the internal padding value never changes again, every subsequent update whose only changed property is `paddingYAxis` is suppressed (no re-render, state untouched), and from an unlocked state an only-padding update engages the lock exactly when the update counter exceeds 300. -/
theorem chart_padding_lock_permanent (s : ChartBaseState) (evs : List ChartBaseEvent)
    (h : s.paddingUpdateLock = true) :
    (chartBaseRun s evs).paddingUpdateLock = true ∧
      (chartBaseRun s evs).paddingYAxisInternal = s.paddingYAxisInternal ∧
      (∀ pad, chartBaseStep (chartBaseRun s evs) (.update true pad) =
        (chartBaseRun s evs, false)) ∧
      (∀ s' : ChartBaseState, ∀ pad : Int, s'.paddingUpdateLock = false →
        ((chartBaseStep s' (.update true pad)).1.paddingUpdateLock = true ↔
          300 < s'.paddingUpdateCount + 1)) := by
  have hrun := chartBaseRun_locked evs s h
  refine ⟨hrun.1, hrun.2, ?_, ?_⟩
  · intro pad
    simp [chartBaseStep, hrun.1]
  · intro s' pad hs'
    by_cases hgt : 300 < s'.paddingUpdateCount + 1
    · simp [chartBaseStep, hs', hgt]
    · simp [chartBaseStep, hs', hgt]

/-- Witness for claim C10 at a concrete locked state and event trace. -/
theorem chart_padding_lock_permanent_witness :
    (ChartBaseState.mk 301 true 5).paddingUpdateLock = true ∧
      ((chartBaseRun ⟨301, true, 5⟩
          [.update true 7, .quiet, .update false 3]).paddingUpdateLock = true ∧
        (chartBaseRun ⟨301, true, 5⟩
          [.update true 7, .quiet, .update false 3]).paddingYAxisInternal =
            (ChartBaseState.mk 301 true 5).paddingYAxisInternal ∧
        (∀ pad, chartBaseStep
            (chartBaseRun ⟨301, true, 5⟩ [.update true 7, .quiet, .update false 3])
            (.update true pad) =
          (chartBaseRun ⟨301, true, 5⟩ [.update true 7, .quiet, .update false 3], false)) ∧
        (∀ s' : ChartBaseState, ∀ pad : Int, s'.paddingUpdateLock = false →
          ((chartBaseStep s' (.update true pad)).1.paddingUpdateLock = true ↔
            300 < s'.paddingUpdateCount + 1))) :=
  ⟨rfl, chart_padding_lock_permanent ⟨301, true, 5⟩
    [.update true 7, .quiet, .update false 3] rfl⟩

/-- Claim C5 (amended): with no statistics data the chart renders a localized placeholder and never the chart; while loading with no data it renders the loading placeholder provided the history integration is loaded; with history disabled the history-disabled placeholder is rendered instead. -/
theorem statistics_chart_placeholder (historyLoaded isLoading : Bool)
    (sd : Option (List (List StatValue))) (hnd : sd.getD [] = []) :
    renderStatisticsChart historyLoaded isLoading sd ≠ .chart ∧
      (∃ k, renderStatisticsChart historyLoaded isLoading sd = .info k) ∧
      (historyLoaded = true → isLoading = true → sd = none →
        renderStatisticsChart historyLoaded isLoading sd =
          .info "ui.components.statistics_charts.loading_statistics") ∧
      (historyLoaded = false →
        renderStatisticsChart historyLoaded isLoading sd =
          .info "ui.components.history_charts.history_disabled") := by
  cases historyLoaded with
  | false => simp [renderStatisticsChart]
  | true =>
    cases sd with
    | none => cases isLoading <;> simp [renderStatisticsChart]
    | some l =>
      have hl : l = [] := by simpa using hnd
      subst hl
      cases isLoading <;> simp [renderStatisticsChart]

/-- Claim C5, counterexample: loading with no data but the history integration disabled renders the history-disabled placeholder, not the loading placeholder. -/
theorem statistics_chart_loading_placeholder_cex :
    renderStatisticsChart false true none =
        .info "ui.components.history_charts.history_disabled" ∧
      renderStatisticsChart false true none ≠
        .info "ui.components.statistics_charts.loading_statistics" := by
  constructor
  · decide
  · decide

/-- Witness for claim C5 at concrete flags and data. -/
theorem statistics_chart_placeholder_witness :
    ((none : Option (List (List StatValue))).getD [] = []) ∧
      (renderStatisticsChart true true none ≠ .chart ∧
        (∃ k, renderStatisticsChart true true none = .info k) ∧
        (true = true → true = true → (none : Option (List (List StatValue))) = none →
          renderStatisticsChart true true none =
            .info "ui.components.statistics_charts.loading_statistics") ∧
        (true = false →
          renderStatisticsChart true true none =
            .info "ui.components.history_charts.history_disabled")) :=
  ⟨rfl, statistics_chart_placeholder true true none rfl⟩

/-- Every series being nonempty, each last-bucket start is defined, so the
default end-time computation does not throw. -/
theorem lastStarts_some :
    ∀ (sd : List (List StatValue)), (∀ stats ∈ sd, stats ≠ []) →
      ∃ l, lastStarts sd = some l := by
  intro sd
  induction sd with
  | nil => intro _; exact ⟨[], rfl⟩
  | cons stats rest ih =>
    intro h
    obtain ⟨l, hl⟩ := ih fun x hx => h x (List.mem_cons_of_mem _ hx)
    have hne : stats ≠ [] := h stats (List.mem_cons_self _ _)
    obtain ⟨x, hx⟩ : ∃ x, stats.getLast? = some x := by
      cases hgl : stats.getLast? with
      | none => exact absurd (List.getLast?_eq_none_iff.mp hgl) hne
      | some x => exact ⟨x, rfl⟩
    exact ⟨x.start :: l, by simp [lastStarts, hx, hl]⟩

/-- Claim C8, counterexample: with statistics data holding one statistic
whose series is empty, a run with `endTime` set assigns fresh datasets
while a run with `endTime` unset throws while computing the default end
time (`stats[stats.length - 1].start` of an empty series) and keeps the
stale chart data - so the outcome does depend on `endTime`. -/
theorem statistics_chart_endTime_dependent_cex :
    generateData true [.mean] (some 100) 200 (some [[]]) = .updated [] ∧
      generateData true [.mean] none 200 (some [[]]) = .thrown ∧
      generateData true [.mean] (some 100) 200 (some [[]]) ≠
        generateData true [.mean] none 200 (some [[]]) := by
  refine ⟨rfl, rfl, by decide⟩

/-- Claim C8 (amended): provided every statistic's series is nonempty, the
outcome of the data generation is independent of the `endTime` property
and of the clock used to clamp it - the computed, clamped end time is
never used to filter, truncate, or place any point; only when `endTime` is
unset and some series is empty does the run differ, by throwing in the
default-end-time computation before any point is built. -/
theorem statistics_chart_endTime_independent (isLine : Bool) (req : List StatType)
    (e1 e2 : Option Int) (n1 n2 : Int) (sd : Option (List (List StatValue)))
    (hne : ∀ stats ∈ sd.getD [], stats ≠ []) :
    generateData isLine req e1 n1 sd = generateData isLine req e2 n2 sd := by
  cases sd with
  | none => rfl
  | some statsData =>
    have hne2 : ∀ stats ∈ statsData, stats ≠ [] := by simpa using hne
    by_cases hlen : statsData.length = 0
    · simp [generateData, hlen]
    · obtain ⟨l, hl⟩ := lastStarts_some statsData hne2
      have hm : maxLastStart statsData = some (l.foldl max 0) := by
        simp [maxLastStart, hl]
      cases e1 <;> cases e2 <;> simp [generateData, hlen, hm]

/-- Witness for claim C8 at a concrete one-bucket series, with `endTime`
set in one run and unset in the other. -/
theorem statistics_chart_endTime_independent_witness :
    (∀ stats ∈ (some [[exMeanA]] : Option (List (List StatValue))).getD [], stats ≠ []) ∧
      generateData true [.mean] (some 3) 5 (some [[exMeanA]]) =
        generateData true [.mean] none 6 (some [[exMeanA]]) :=
  ⟨by decide, statistics_chart_endTime_independent true [.mean] (some 3) none 5 6
    (some [[exMeanA]]) (by decide)⟩

/-- `pushData`'s per-dataset loop preserves the number of datasets. -/
theorem appendPoints_length (isLine : Bool) (pe : Option Int)
    (pv : Option (List (Option ℚ))) (start : Int) (dv : List (Option ℚ)) :
    ∀ (ds : List (List Point)) (i : Nat),
      (appendPoints isLine pe pv start dv i ds).length = ds.length := by
  intro ds
  induction ds with
  | nil => intro i; rfl
  | cons d rest ih => intro i; simp [appendPoints, ih]

/-- What `pushData`'s per-dataset loop appends to dataset `j`. -/
theorem appendPoints_getElem (isLine : Bool) (pe : Option Int)
    (pv : Option (List (Option ℚ))) (start : Int) (dv : List (Option ℚ)) :
    ∀ (ds : List (List Point)) (i j : Nat),
      (appendPoints isLine pe pv start dv i ds)[j]? =
        (ds[j]?).map fun d =>
          d ++ pushGap isLine pe pv start (i + j) ++ [⟨start, dv.getD (i + j) none⟩] := by
  intro ds
  induction ds with
  | nil => intro i j; simp [appendPoints]
  | cons d rest ih =>
    intro i j
    cases j with
    | zero => simp [appendPoints]
    | succ j =>
      have harith : i + 1 + j = i + (j + 1) := by omega
      simp only [appendPoints, List.getElem?_cons_succ]
      rw [ih (i + 1) j, harith]

/-- The bucket loop refines the spec-side dataset builder: dataset `i` after the loop is the accumulated prefix followed by the gap-flattened retained buckets. -/
theorem processStats_spec (isLine : Bool) (types : List StatType) :
    ∀ (stats : List StatValue) (fs : Option ℚ) (pv : Option (List (Option ℚ)))
      (pe : Option Int) (ds : List (List Point)) (i : Nat),
      i < types.length → ds.length = types.length →
      (processStats isLine types fs pv pe ds stats)[i]? =
        some (ds.getD i [] ++ gapFlatten isLine (prevCombine pe pv i)
          (((statTriples types fs stats).filter fun t => !(decide (t.1 > t.2.1))).map
            fun t => (t.1, t.2.1, t.2.2.getD i none))) := by
  intro stats
  induction stats with
  | nil =>
    intro fs pv pe ds i hi hlen
    have hilen : i < ds.length := hlen ▸ hi
    simp [processStats, statTriples, gapFlatten, List.getD_eq_getElem?_getD,
      List.getElem?_eq_getElem hilen]
  | cons st rest ih =>
    intro fs pv pe ds i hi hlen
    by_cases hdrop : st.start > st.endT
    · simp only [processStats, pushData, if_pos hdrop]
      rw [ih (bucketValues st fs types).2 pv pe ds i hi hlen]
      simp [statTriples, hdrop]
    · simp only [processStats, pushData, if_neg hdrop]
      rw [ih (bucketValues st fs types).2 (some (bucketValues st fs types).1)
        (some st.endT) _ i hi
        ((appendPoints_length isLine pe pv st.start (bucketValues st fs types).1 ds 0).trans hlen)]
      have hilen : i < ds.length := hlen ▸ hi
      have hds' : (appendPoints isLine pe pv st.start (bucketValues st fs types).1 0 ds).getD i [] =
          ds.getD i [] ++ pushGap isLine pe pv st.start i ++
            [⟨st.start, (bucketValues st fs types).1.getD i none⟩] := by
        rw [List.getD_eq_getElem?_getD,
          appendPoints_getElem isLine pe pv st.start (bucketValues st fs types).1 ds 0 i]
        simp [List.getElem?_eq_getElem hilen, List.getD_eq_getElem?_getD]
      rw [hds']
      cases pe with
      | none =>
        cases pv <;>
          simp [statTriples, List.filter_cons, hdrop, gapFlatten, prevCombine, pushGap,
            List.append_assoc]
      | some pe' =>
        cases pv <;>
          simp [statTriples, List.filter_cons, hdrop, gapFlatten, prevCombine, pushGap,
            List.append_assoc]

/-- The generated dataset for type index `i` is exactly the spec-side dataset. -/
theorem generateStatDatasets_eq_spec (isLine : Bool) (types : List StatType)
    (stats : List StatValue) (i : Nat) (hi : i < types.length) :
    (generateStatDatasets isLine types stats)[i]? =
      some (specDataset isLine types stats i) := by
  rw [generateStatDatasets,
    processStats_spec isLine types stats none none none _ i hi (List.length_replicate _ _)]
  have hrep : (List.replicate types.length ([] : List Point)).getD i [] = [] := by
    rw [List.getD_eq_getElem?_getD]
    rw [List.getElem?_replicate]
    split <;> rfl
  rw [hrep]
  simp [specDataset, specRetainedAt, retainedBuckets, prevCombine]

/-- The spec-side dataset builder splits over list concatenation. -/
theorem gapFlatten_append (isLine : Bool) :
    ∀ (xs ys : List (Int × Int × Option ℚ)) (prev : Option (Int × Option ℚ)),
      gapFlatten isLine prev (xs ++ ys) =
        gapFlatten isLine prev xs ++ gapFlatten isLine (lastPrev prev xs) ys := by
  intro xs
  induction xs with
  | nil => intro ys prev; simp [gapFlatten, lastPrev]
  | cons t rest ih =>
    intro ys prev
    obtain ⟨s, e, v⟩ := t
    simp only [List.cons_append, gapFlatten, List.append_eq]
    rw [ih ys (some (e, v))]
    simp [lastPrev, List.append_assoc]

/-- The per-bucket display points form an order-preserving sublist of the built dataset. -/
theorem gapFlatten_sublist (isLine : Bool) :
    ∀ (l : List (Int × Int × Option ℚ)) (prev : Option (Int × Option ℚ)),
      List.Sublist (l.map fun t => (⟨t.1, t.2.2⟩ : Point)) (gapFlatten isLine prev l) := by
  intro l
  induction l with
  | nil => intro prev; simp [gapFlatten]
  | cons t rest ih =>
    intro prev
    obtain ⟨s, e, v⟩ := t
    simp only [List.map_cons, gapFlatten]
    exact ((ih (some (e, v))).cons₂ _).trans (List.sublist_append_right _ _)

/-- On a non-line chart the built dataset is exactly the per-bucket display points. -/
theorem gapFlatten_not_line :
    ∀ (l : List (Int × Int × Option ℚ)) (prev : Option (Int × Option ℚ)),
      gapFlatten false prev l = l.map fun t => (⟨t.1, t.2.2⟩ : Point) := by
  intro l
  induction l with
  | nil => intro prev; simp [gapFlatten]
  | cons t rest ih =>
    intro prev
    obtain ⟨s, e, v⟩ := t
    cases prev with
    | none => simp [gapFlatten, ih]
    | some p => simp [gapFlatten, ih]

/-- Claim C4 (amended): for every retained statistic type, the generated dataset equals the spec-side dataset — exactly one display point per retained bucket (start > end contributes none), in input order, at the bucket's start time, carrying the bucket's value for the type (with sum baseline-relative as in C9), with gap-point pairs interleaved only on line charts; the per-bucket points are a sublist of it and for non-line charts they are the whole dataset. -/
theorem statistics_chart_linear_bucketing (isLine : Bool) (req : List StatType)
    (stats : List StatValue) (i : Nat)
    (hi : i < (retainedTypes req stats).length) :
    (generateStatDatasets isLine (retainedTypes req stats) stats)[i]? =
        some (specDataset isLine (retainedTypes req stats) stats i) ∧
      List.Sublist (bucketPoints (retainedTypes req stats) stats i)
        (specDataset isLine (retainedTypes req stats) stats i) ∧
      specDataset false (retainedTypes req stats) stats i =
        bucketPoints (retainedTypes req stats) stats i := by
  refine ⟨generateStatDatasets_eq_spec _ _ _ _ hi, ?_, ?_⟩
  · simp only [bucketPoints, specDataset]
    exact gapFlatten_sublist isLine _ none
  · simp only [bucketPoints, specDataset]
    exact gapFlatten_not_line _ none

/-- Claim C4, counterexample: for the sum type, the bucket with sum 5 is displayed with y = 0 and the bucket with sum 7 with y = 7 - 5, so no display point carries the bucket's own sum value 5. -/
theorem statistics_chart_sum_value_cex :
    exSumA.sum = some 5 ∧
      generateStatDatasets true (retainedTypes [.sum] [exSumA, exSumB]) [exSumA, exSumB] =
        [[⟨0, some 0⟩, ⟨5, some ((7 : ℚ) - 5)⟩]] ∧
      (∀ p ∈ [(⟨0, some 0⟩ : Point), ⟨5, some ((7 : ℚ) - 5)⟩], p.y ≠ some 5) := by
  refine ⟨rfl, rfl, ?_⟩
  intro p hp
  simp only [List.mem_cons, List.not_mem_nil, or_false] at hp
  rcases hp with rfl | rfl
  · simp
  · simp only [ne_eq, Option.some.injEq]
    norm_num

/-- Witness for claim C4 at a concrete mean-typed series. -/
theorem statistics_chart_linear_bucketing_witness :
    0 < (retainedTypes [.mean] [exMeanA, exMeanB]).length ∧
      ((generateStatDatasets true (retainedTypes [.mean] [exMeanA, exMeanB])
          [exMeanA, exMeanB])[0]? =
        some (specDataset true (retainedTypes [.mean] [exMeanA, exMeanB])
          [exMeanA, exMeanB] 0) ∧
      List.Sublist (bucketPoints (retainedTypes [.mean] [exMeanA, exMeanB])
          [exMeanA, exMeanB] 0)
        (specDataset true (retainedTypes [.mean] [exMeanA, exMeanB]) [exMeanA, exMeanB] 0) ∧
      specDataset false (retainedTypes [.mean] [exMeanA, exMeanB]) [exMeanA, exMeanB] 0 =
        bucketPoints (retainedTypes [.mean] [exMeanA, exMeanB]) [exMeanA, exMeanB] 0) :=
  ⟨by decide, statistics_chart_linear_bucketing true [.mean] [exMeanA, exMeanB] 0 (by decide)⟩

/-- Two consecutive non-contiguous retained buckets produce the gap-point pair between their display points. -/
theorem gapFlatten_cons_cons (prev : Option (Int × Option ℚ)) (as ae : Int)
    (av : Option ℚ) (bs be : Int) (bv : Option ℚ)
    (t2 : List (Int × Int × Option ℚ)) (hgap : ae ≠ bs) :
    ∃ seg, gapFlatten true prev ((as, ae, av) :: (bs, be, bv) :: t2) =
      seg ++ ⟨as, av⟩ :: ⟨ae, av⟩ :: ⟨ae, none⟩ :: ⟨bs, bv⟩ ::
        gapFlatten true (some (be, bv)) t2 := by
  cases prev with
  | none => exact ⟨[], by simp [gapFlatten, hgap]⟩
  | some p =>
    obtain ⟨pe, pv⟩ := p
    by_cases hp : pe ≠ as
    · exact ⟨[⟨pe, pv⟩, ⟨pe, none⟩], by simp [gapFlatten, hgap, hp]⟩
    · exact ⟨[], by simp [gapFlatten, hgap, hp]⟩

/-- Claim C2: on a line chart, whenever two consecutive retained buckets are non-contiguous (previous end differs from next start), the generated dataset contains, between the two buckets' display points, the previous value and a null-valued gap point, both at the previous bucket's end time. -/
theorem statistics_chart_gap_insertion (req : List StatType) (stats : List StatValue)
    (i : Nat) (t1 t2 : List (Int × Int × Option ℚ)) (a b : Int × Int × Option ℚ)
    (hi : i < (retainedTypes req stats).length)
    (hsplit : specRetainedAt (retainedTypes req stats) stats i = t1 ++ a :: b :: t2)
    (hgap : a.2.1 ≠ b.1) :
    ∃ l r, (generateStatDatasets true (retainedTypes req stats) stats)[i]? =
      some (l ++ ⟨a.1, a.2.2⟩ :: ⟨a.2.1, a.2.2⟩ :: ⟨a.2.1, none⟩ :: ⟨b.1, b.2.2⟩ :: r) := by
  have h := generateStatDatasets_eq_spec true (retainedTypes req stats) stats i hi
  simp only [specDataset, hsplit] at h
  rw [gapFlatten_append] at h
  obtain ⟨as, ae, av⟩ := a
  obtain ⟨bs, be, bv⟩ := b
  obtain ⟨seg, hseg⟩ := gapFlatten_cons_cons (lastPrev none t1) as ae av bs be bv t2 hgap
  rw [hseg] at h
  exact ⟨gapFlatten true none t1 ++ seg, gapFlatten true (some (be, bv)) t2,
    by simpa [List.append_assoc] using h⟩

/-- Witness for claim C2 at a concrete two-bucket series with a gap. -/
theorem statistics_chart_gap_insertion_witness :
    0 < (retainedTypes [.mean] [exMeanA, exMeanB]).length ∧
      specRetainedAt (retainedTypes [.mean] [exMeanA, exMeanB]) [exMeanA, exMeanB] 0 =
        [] ++ ((0 : Int), (5 : Int), (some 1 : Option ℚ)) ::
          ((7 : Int), (9 : Int), (some 2 : Option ℚ)) :: [] ∧
      (((0 : Int), (5 : Int), (some 1 : Option ℚ)).2.1 ≠
        ((7 : Int), (9 : Int), (some 2 : Option ℚ)).1) ∧
      (∃ l r, (generateStatDatasets true (retainedTypes [.mean] [exMeanA, exMeanB])
          [exMeanA, exMeanB])[0]? =
        some (l ++ ⟨(0 : Int), (some 1 : Option ℚ)⟩ :: ⟨5, some 1⟩ :: ⟨5, none⟩ ::
          ⟨7, some 2⟩ :: r)) :=
  ⟨by decide, by decide, by decide,
    statistics_chart_gap_insertion [.mean] [exMeanA, exMeanB] 0 [] []
      (0, 5, some 1) (7, 9, some 2) (by decide) (by decide) (by decide)⟩

/-- A set `firstSum` baseline is never overwritten. -/
theorem bucketValues_snd_some (st : StatValue) (f : ℚ) :
    ∀ (ts : List StatType), (bucketValues st (some f) ts).2 = some f := by
  intro ts
  induction ts with
  | nil => rfl
  | cons t rest ih =>
    by_cases ht : t = StatType.sum
    · simp [bucketValues, ht, ih]
    · simp [bucketValues, ht, ih]

/-- A bucket with no defined sum leaves the baseline unset. -/
theorem bucketValues_snd_sum_none (st : StatValue) (hsum : st.sum = none) :
    ∀ (ts : List StatType), (bucketValues st none ts).2 = none := by
  intro ts
  induction ts with
  | nil => rfl
  | cons t rest ih =>
    by_cases ht : t = StatType.sum
    · simp [bucketValues, ht, hsum, ih]
    · simp [bucketValues, ht, ih]

/-- After a bucket, the baseline is that bucket's sum when it was unset before. -/
theorem bucketValues_snd (st : StatValue) :
    ∀ (ts : List StatType), StatType.sum ∈ ts →
      (bucketValues st none ts).2 = st.sum := by
  intro ts
  induction ts with
  | nil => intro h; cases h
  | cons t rest ih =>
    intro hmem
    by_cases ht : t = StatType.sum
    · cases hsum : st.sum with
      | none => simp [bucketValues, ht, hsum, bucketValues_snd_sum_none st hsum]
      | some f => simp [bucketValues, ht, hsum, bucketValues_snd_some st f]
    · have hmem' : StatType.sum ∈ rest := by
        cases List.mem_cons.mp hmem with
        | inl h => exact absurd h.symm ht
        | inr h => exact h
      simp [bucketValues, ht, ih hmem']

/-- The value computed for the sum type: 0 while the baseline is unset, otherwise sum (0 when missing) minus the baseline. -/
theorem bucketValues_sum_value (st : StatValue) (fs : Option ℚ) :
    ∀ (tpre tpost : List StatType), StatType.sum ∉ tpre →
      (bucketValues st fs (tpre ++ StatType.sum :: tpost)).1.getD tpre.length none =
        some (match fs with | none => (0 : ℚ) | some f => st.sum.getD 0 - f) := by
  intro tpre
  induction tpre with
  | nil =>
    intro tpost _
    cases fs with
    | none => simp [bucketValues]
    | some f => simp [bucketValues]
  | cons t rest ih =>
    intro tpost hnot
    have ht : ¬ t = StatType.sum := fun h => hnot (h ▸ List.mem_cons_self t rest)
    have hrest : StatType.sum ∉ rest := fun h => hnot (List.mem_cons_of_mem _ h)
    simp only [List.cons_append, bucketValues, if_neg ht, List.length_cons,
      List.getD_cons_succ]
    exact ih tpost hrest

/-- Once the baseline is set, every later bucket's sum value is its sum (0 when missing) minus the baseline. -/
theorem statTriples_post (tpre tpost : List StatType) (hnot : StatType.sum ∉ tpre) (f : ℚ) :
    ∀ (post : List StatValue),
      (statTriples (tpre ++ StatType.sum :: tpost) (some f) post).map
          (fun t => t.2.2.getD tpre.length none) =
        post.map (fun st => some (st.sum.getD 0 - f)) := by
  intro post
  induction post with
  | nil => rfl
  | cons st rest ih =>
    simp only [statTriples, List.map_cons, bucketValues_snd_some st f]
    rw [bucketValues_sum_value st (some f) tpre tpost hnot, ih]

/-- Claim C9 (amended): for the sum type, every bucket up to and including the first bucket with a defined sum is assigned plotted value 0, that bucket's sum becomes the baseline, and every subsequent bucket is assigned its sum (0 when missing) minus the baseline — the assigned value reaches the chart only for buckets that `pushData` retains. -/
theorem statistics_chart_sum_baseline (tpre tpost : List StatType)
    (pre post : List StatValue) (bj : StatValue)
    (hnot : StatType.sum ∉ tpre)
    (hpre : ∀ st ∈ pre, st.sum = none) (hbj : bj.sum ≠ none) :
    (statTriples (tpre ++ StatType.sum :: tpost) none (pre ++ bj :: post)).map
        (fun t => t.2.2.getD tpre.length none) =
      pre.map (fun _ => some (0 : ℚ)) ++ some 0 ::
        post.map (fun st => some (st.sum.getD 0 - bj.sum.getD 0)) := by
  have hsummem : StatType.sum ∈ tpre ++ StatType.sum :: tpost :=
    List.mem_append.mpr (Or.inr (List.mem_cons_self _ _))
  induction pre with
  | nil =>
    obtain ⟨f, hf⟩ := Option.ne_none_iff_exists'.mp hbj
    simp only [List.nil_append, statTriples, List.map_cons, List.map_nil,
      bucketValues_snd bj _ hsummem, hf]
    rw [bucketValues_sum_value bj none tpre tpost hnot,
      statTriples_post tpre tpost hnot f]
    simp [hf]
  | cons st pre' ih =>
    have hsum : st.sum = none := hpre st (List.mem_cons_self st pre')
    have hpre' : ∀ x ∈ pre', x.sum = none := fun x hx => hpre x (List.mem_cons_of_mem _ hx)
    simp only [List.cons_append, statTriples, List.map_cons, List.append_eq,
      bucketValues_snd st _ hsummem, hsum]
    rw [bucketValues_sum_value st none tpre tpost hnot, ih hpre']

/-- Claim C9, counterexample: when the first bucket with a defined sum has start > end it sets the baseline but is dropped, so no display point is plotted as 0 even though later buckets are plotted relative to its sum. -/
theorem statistics_chart_sum_baseline_cex :
    exDropA.sum = some 5 ∧ exDropA.start > exDropA.endT ∧
      generateStatDatasets true (retainedTypes [.sum] [exDropA, exDropB]) [exDropA, exDropB] =
        [[⟨0, some ((7 : ℚ) - 5)⟩]] ∧
      (∀ p ∈ [(⟨0, some ((7 : ℚ) - 5)⟩ : Point)], p.y ≠ some 0) := by
  refine ⟨rfl, by decide, rfl, ?_⟩
  intro p hp
  simp only [List.mem_cons, List.not_mem_nil, or_false] at hp
  subst hp
  simp only [ne_eq, Option.some.injEq]
  norm_num

/-- Witness for claim C9 at a concrete series with an undefined-sum bucket before the baseline bucket. -/
theorem statistics_chart_sum_baseline_witness :
    (StatType.sum ∉ ([] : List StatType)) ∧
      (∀ st ∈ [exNoSum], st.sum = none) ∧ exSumA.sum ≠ none ∧
      (statTriples (([] : List StatType) ++ StatType.sum :: []) none
          ([exNoSum] ++ exSumA :: [exDropB])).map
          (fun t => t.2.2.getD (List.length ([] : List StatType)) none) =
        [exNoSum].map (fun _ => some (0 : ℚ)) ++ some 0 ::
          [exDropB].map (fun st => some (st.sum.getD 0 - exSumA.sum.getD 0)) :=
  ⟨by simp, by decide, by decide,
    statistics_chart_sum_baseline [] [] [exNoSum] [exDropB] exSumA (by simp)
      (by decide) (by decide)⟩

/-- The traced bucket loop computes the same datasets as the untraced one. -/
theorem processStatsT_fst (isLine : Bool) (types : List StatType) :
    ∀ (stats : List StatValue) (fs : Option ℚ) (pv : Option (List (Option ℚ)))
      (pe : Option Int) (ds : List (List Point)) (k : Nat),
      (processStatsT isLine types fs pv pe ds k stats).1 =
        processStats isLine types fs pv pe ds stats := by
  intro stats
  induction stats with
  | nil => intros; rfl
  | cons st rest ih =>
    intro fs pv pe ds k
    simp [processStatsT, processStats, ih]

/-- The traced bucket loop visits bucket indices `k, k+1, ...` in order, one each. -/
theorem processStatsT_trace (isLine : Bool) (types : List StatType) :
    ∀ (stats : List StatValue) (fs : Option ℚ) (pv : Option (List (Option ℚ)))
      (pe : Option Int) (ds : List (List Point)) (k : Nat),
      (processStatsT isLine types fs pv pe ds k stats).2 =
        List.range' k stats.length := by
  intro stats
  induction stats with
  | nil => intros; rfl
  | cons st rest ih =>
    intro fs pv pe ds k
    simp [processStatsT, List.range'_succ, ih]

/-- The traced generation computes the same datasets as `genAll`. -/
theorem genAllT_fst (isLine : Bool) (req : List StatType) :
    ∀ (sd : List (List StatValue)) (s : Nat),
      (genAllT isLine req s sd).1 = genAll isLine req sd := by
  intro sd
  induction sd with
  | nil => intros; rfl
  | cons stats rest ih =>
    intro s
    simp [genAllT, genAll, processStatsT_fst, generateStatDatasets, ih]

/-- The traced generation's visit trace is the statistic-by-statistic enumeration. -/
theorem genAllT_trace (isLine : Bool) (req : List StatType) :
    ∀ (sd : List (List StatValue)) (s : Nat),
      (genAllT isLine req s sd).2 = enumPairs s sd := by
  intro sd
  induction sd with
  | nil => intros; rfl
  | cons stats rest ih =>
    intro s
    simp [genAllT, enumPairs, processStatsT_trace, ih, List.range_eq_range']

/-- Every enumerated pair's statistic index is at least the starting index. -/
theorem enumPairs_fst_le :
    ∀ (sd : List (List StatValue)) (s : Nat), ∀ p ∈ enumPairs s sd, s ≤ p.1 := by
  intro sd
  induction sd with
  | nil => intro s p hp; cases hp
  | cons stats rest ih =>
    intro s p hp
    rcases List.mem_append.mp hp with hl | hr
    · obtain ⟨a, _, rfl⟩ := List.mem_map.mp hl
      exact Nat.le_refl s
    · exact Nat.le_of_succ_le (ih (s + 1) p hr)

/-- The enumeration lists every (statistic, bucket) pair at most once. -/
theorem enumPairs_nodup :
    ∀ (sd : List (List StatValue)) (s : Nat), (enumPairs s sd).Nodup := by
  intro sd
  induction sd with
  | nil => intro s; exact List.nodup_nil
  | cons stats rest ih =>
    intro s
    refine List.nodup_append.mpr ⟨?_, ih (s + 1), ?_⟩
    · exact (List.nodup_range _).map fun a b h => ((Prod.mk.injEq _ _ _ _).mp h).2
    · intro p hl hr
      obtain ⟨a, _, rfl⟩ := List.mem_map.mp hl
      have := enumPairs_fst_le rest (s + 1) _ hr
      omega

/-- The enumeration lists exactly the in-range (statistic, bucket) pairs. -/
theorem enumPairs_mem :
    ∀ (sd : List (List StatValue)) (s si k : Nat),
      ((si, k) ∈ enumPairs s sd) ↔
        (s ≤ si ∧ si - s < sd.length ∧ k < (sd.getD (si - s) []).length) := by
  intro sd
  induction sd with
  | nil =>
    intro s si k
    simp [enumPairs]
  | cons stats rest ih =>
    intro s si k
    simp only [enumPairs, List.mem_append, List.mem_map, List.mem_range, List.length_cons]
    constructor
    · rintro (⟨a, ha, heq⟩ | hmem)
      · have h1 : s = si ∧ a = k := by
          simpa using heq
        obtain ⟨rfl, rfl⟩ := h1
        refine ⟨Nat.le_refl s, by omega, ?_⟩
        simpa [Nat.sub_self] using ha
      · have h := (ih (s + 1) si k).mp hmem
        have hm : si - s = (si - (s + 1)) + 1 := by omega
        refine ⟨by omega, by omega, ?_⟩
        rw [hm, List.getD_cons_succ]
        exact h.2.2
    · rintro ⟨h1, h2, h3⟩
      by_cases hsi : si = s
      · subst hsi
        left
        refine ⟨k, ?_, rfl⟩
        simpa [Nat.sub_self] using h3
      · right
        apply (ih (s + 1) si k).mpr
        have hm : si - s = (si - (s + 1)) + 1 := by omega
        rw [hm, List.getD_cons_succ] at h3
        exact ⟨by omega, by omega, h3⟩

/-- Claim C7: the data generation is a single bounded pass — instrumenting it with a visit trace changes nothing about its output, and the trace lists exactly the (statistic index, bucket index) pairs of the input, each exactly once, in order; termination is by structural recursion on the input. -/
theorem statistics_chart_single_pass (isLine : Bool) (req : List StatType)
    (sd : List (List StatValue)) :
    (genAllT isLine req 0 sd).1 = genAll isLine req sd ∧
      (genAllT isLine req 0 sd).2 = enumPairs 0 sd ∧
      (enumPairs 0 sd).Nodup ∧
      (∀ si k, ((si, k) ∈ enumPairs 0 sd) ↔
        si < sd.length ∧ k < (sd.getD si []).length) := by
  refine ⟨genAllT_fst isLine req sd 0, genAllT_trace isLine req sd 0,
    enumPairs_nodup sd 0, ?_⟩
  intro si k
  rw [enumPairs_mem sd 0 si k]
  simp
